import Mathlib

/-!
# goodMoringSunshine: the daily mail job and the recipient store

A shallow embedding of `pkg/db/schema.go`, `pkg/gms/model/gms_model.go` and
`pkg/gms/gms_service.go`.

* The five SQL strings of `schema.go` are kept as strings.  `Prepare` is a
  tokenizer and a parser for the fragment of SQLite's grammar that the five
  statements are written in; a statement outside the grammar makes `Prepare`
  fail, as `db.Prepare` does.
* The database is a list of tables, each with its column definitions (and
  their uniqueness constraints) and its rows in insertion order.
* An instant (`time.Time`) is an integer, the count of nanoseconds since the
  Unix epoch; `24 * time.Hour` is `86400000000000`.  Stored and bound
  instants compare as these integers.
* A location (`*time.Location`) is its table of offset transitions.  The
  year, month and day of an instant stand for the number of the day its wall
  clock shows, and `time.Date` turns that number back into the day.
* `dbpkg.NewdbConnection`, `email.GetEmailTemplate`,
  `email.SendEmailUsingGmailSMTP`, `rand.Intn` and the `viper` configuration
  are outside the three files: what they return is a parameter.
* The scheduler is followed on a logical clock: statements take no time but
  for `time.Sleep` and the wait of the `select`.
-/

namespace GMS

/-! ## SQL text: tokens -/

/-- The words and punctuation marks of a statement. -/
inductive Token where
  | word (w : String)
  | lparen
  | rparen
  | comma
  | semi
  | star
  | lt
  | eq
  | qmark
  deriving DecidableEq, Repr

/-- Letters, digits and the underscore make up keywords and identifiers. -/
def isWordChar (c : Char) : Bool :=
  c.isAlphanum || c == '_'

/-- The token of a punctuation character, if it is one. -/
def punct (c : Char) : Option Token :=
  if c == '(' then some Token.lparen
  else if c == ')' then some Token.rparen
  else if c == ',' then some Token.comma
  else if c == ';' then some Token.semi
  else if c == '*' then some Token.star
  else if c == '<' then some Token.lt
  else if c == '=' then some Token.eq
  else if c == '?' then some Token.qmark
  else none

/-- Close the word being read, if any.  Words are case-insensitive in SQL and
are kept in lower case; `cur` holds the characters read so far, last first. -/
def flushWord (cur : List Char) (acc : List Token) : List Token :=
  if cur.isEmpty then acc else Token.word (String.mk (cur.reverse.map Char.toLower)) :: acc

/-- The tokenizer proper: `acc` holds the tokens read so far, last first. -/
def tokenizeAux : List Char → List Char → List Token → Option (List Token)
  | [], cur, acc => some (flushWord cur acc).reverse
  | c :: cs, cur, acc =>
    if isWordChar c then tokenizeAux cs (c :: cur) acc
    else if c.isWhitespace then tokenizeAux cs [] (flushWord cur acc)
    else
      match punct c with
      | some t => tokenizeAux cs [] (t :: flushWord cur acc)
      | none => none

/-- The tokens of a statement; `none` on a character outside the fragment. -/
def tokenize (q : String) : Option (List Token) :=
  tokenizeAux q.data [] []

/-! ## SQL text: statements -/

/-- A column of `CREATE TABLE`: its name, its declared type and its
constraints.  `unique` stands for both `PRIMARY KEY` and `UNIQUE`: the
constraints on which `INSERT OR REPLACE` finds a conflict. -/
structure ColDef where
  name : String
  type : String
  notNull : Bool
  unique : Bool
  deriving DecidableEq, Repr

/-- The comparison operators of the fragment. -/
inductive CmpOp where
  | lt
  | eq
  deriving DecidableEq, Repr

/-- The right-hand side of a comparison: the `k`-th `?` of the statement, or
one of the literals `true` and `false`. -/
inductive Rhs where
  | param (k : Nat)
  | bool (b : Bool)
  deriving DecidableEq, Repr

/-- One comparison `col op rhs` of a `WHERE` clause. -/
structure Atom where
  col : String
  op : CmpOp
  rhs : Rhs
  deriving DecidableEq, Repr

/-- The statements of the fragment.  A `WHERE` clause is the conjunction of
its atoms. -/
inductive Stmt where
  | createTable (name : String) (cols : List ColDef)
  | insertOrReplace (table : String) (cols : List String) (nparams : Nat)
  | delete (table : String) (cond : List Atom)
  | update (table : String) (col : String) (val : Bool) (cond : List Atom)
  | select (table : String) (cond : List Atom)
  deriving DecidableEq, Repr

/-- Words SQLite reserves: they are never read as a table or column name. -/
def reserved : List String :=
  ["select", "from", "where", "and", "or", "not", "null", "insert", "into",
   "values", "delete", "update", "set", "create", "table", "exists",
   "primary", "unique", "is", "in", "as", "on"]

/-- A word that may name a table or a column. -/
def isIdent (w : String) : Bool :=
  !reserved.contains w

/-- The statement ends here: nothing is left, or a lone `;`. -/
def atEnd (toks : List Token) : Bool :=
  toks == [] || toks == [Token.semi]

/-- The column definitions that follow the first one, up to the closing
parenthesis.  `cur` is the definition being read and `acc` the finished ones,
last first. -/
def parseColDefs : List Token → ColDef → List ColDef → Option (List ColDef × List Token)
  | [], _, _ => none
  | Token.rparen :: rest, cur, acc => some ((cur :: acc).reverse, rest)
  | Token.comma :: rest, cur, acc =>
    match rest with
    | Token.word n :: Token.word ty :: rest' =>
      if isIdent n && isIdent ty then parseColDefs rest' ⟨n, ty, false, false⟩ (cur :: acc)
      else none
    | _ => none
  | Token.word w :: rest, cur, acc =>
    if w = "unique" then parseColDefs rest { cur with unique := true } acc
    else
      match rest with
      | Token.word w' :: rest' =>
        if w = "not" && w' = "null" then parseColDefs rest' { cur with notNull := true } acc
        else if w = "primary" && w' = "key" then parseColDefs rest' { cur with unique := true } acc
        else none
      | _ => none
  | _ :: _, _, _ => none

/-- A comma-separated list of names closed by a parenthesis. -/
def parseNames : List Token → Option (List String × List Token)
  | Token.word w :: Token.rparen :: rest =>
    if isIdent w then some ([w], rest) else none
  | Token.word w :: Token.comma :: rest =>
    if isIdent w then (parseNames rest).map (fun p => (w :: p.1, p.2)) else none
  | _ => none

/-- A comma-separated list of `?` closed by a parenthesis; their number. -/
def parseParams : List Token → Option (Nat × List Token)
  | Token.qmark :: Token.rparen :: rest => some (1, rest)
  | Token.qmark :: Token.comma :: rest => (parseParams rest).map (fun p => (p.1 + 1, p.2))
  | _ => none

/-- The operator of a comparison. -/
def parseOp : Token → Option CmpOp
  | Token.lt => some CmpOp.lt
  | Token.eq => some CmpOp.eq
  | _ => none

/-- The right-hand side of a comparison; `k` numbers the next `?`. -/
def parseRhs (k : Nat) : Token → Option (Rhs × Nat)
  | Token.qmark => some (Rhs.param k, k + 1)
  | Token.word w =>
    if w = "true" then some (Rhs.bool true, k)
    else if w = "false" then some (Rhs.bool false, k)
    else none
  | _ => none

/-- One atom `col op rhs`. -/
def parseAtom (k : Nat) (c : String) (o r : Token) : Option (Atom × Nat) :=
  if isIdent c then
    match parseOp o, parseRhs k r with
    | some op, some (rhs, k') => some (⟨c, op, rhs⟩, k')
    | _, _ => none
  else none

/-- The atoms of a `WHERE` clause, joined by `AND`, up to the end of the
statement. -/
def parseCond : List Token → Nat → Option (List Atom)
  | Token.word c :: o :: r :: rest, k =>
    match parseAtom k c o r with
    | none => none
    | some (a, k') =>
      match rest with
      | Token.word w :: rest' =>
        if w = "and" then (parseCond rest' k').map (fun as => a :: as) else none
      | _ => if atEnd rest then some [a] else none
  | _, _ => none

/-- What follows `CREATE`: `TABLE IF NOT EXISTS name (coldef, ...)`. -/
def parseCreate : List Token → Option Stmt
  | Token.word a :: Token.word b :: Token.word c :: Token.word d :: Token.word t ::
      Token.lparen :: Token.word n :: Token.word ty :: rest =>
    if a = "table" && b = "if" && c = "not" && d = "exists"
        && isIdent t && isIdent n && isIdent ty then
      match parseColDefs rest ⟨n, ty, false, false⟩ [] with
      | some (cols, rest') => if atEnd rest' then some (Stmt.createTable t cols) else none
      | none => none
    else none
  | _ => none

/-- What follows `INSERT`: `OR REPLACE INTO name (cols) VALUES (?, ...)`. -/
def parseInsert : List Token → Option Stmt
  | Token.word a :: Token.word b :: Token.word c :: Token.word t :: Token.lparen :: rest =>
    if a = "or" && b = "replace" && c = "into" && isIdent t then
      match parseNames rest with
      | some (cols, Token.word v :: Token.lparen :: rest') =>
        if v = "values" then
          match parseParams rest' with
          | some (n, rest2) =>
            if atEnd rest2 then some (Stmt.insertOrReplace t cols n) else none
          | none => none
        else none
      | _ => none
    else none
  | _ => none

/-- What follows `DELETE`: `FROM name WHERE cond`. -/
def parseDelete : List Token → Option Stmt
  | Token.word a :: Token.word t :: Token.word w :: rest =>
    if a = "from" && isIdent t && w = "where" then
      (parseCond rest 0).map (Stmt.delete t)
    else none
  | _ => none

/-- What follows `UPDATE`: `name SET col = true|false WHERE cond`. -/
def parseUpdate : List Token → Option Stmt
  | Token.word t :: Token.word s :: Token.word c :: Token.eq :: Token.word v ::
      Token.word w :: rest =>
    if isIdent t && s = "set" && isIdent c && w = "where" then
      if v = "true" then (parseCond rest 0).map (Stmt.update t c true)
      else if v = "false" then (parseCond rest 0).map (Stmt.update t c false)
      else none
    else none
  | _ => none

/-- What follows `SELECT`: `* FROM name WHERE cond`. -/
def parseSelect : List Token → Option Stmt
  | Token.star :: Token.word a :: Token.word t :: Token.word w :: rest =>
    if a = "from" && isIdent t && w = "where" then
      (parseCond rest 0).map (Stmt.select t)
    else none
  | _ => none

/-- A statement, from its first word. -/
def parseStmt : List Token → Option Stmt
  | Token.word w :: rest =>
    if w = "create" then parseCreate rest
    else if w = "insert" then parseInsert rest
    else if w = "delete" then parseDelete rest
    else if w = "update" then parseUpdate rest
    else if w = "select" then parseSelect rest
    else none
  | _ => none

/-- The statement a string of SQL denotes, if it is one of the fragment. -/
def parseSQL (q : String) : Option Stmt :=
  (tokenize q).bind parseStmt

/-! ## The database -/

/-- A stored or bound value.  A `time.Time` is the integer of its instant, so
that `<` on two of them is "earlier than". -/
inductive Value where
  | null
  | text (s : String)
  | time (t : Int)
  | bool (b : Bool)
  deriving DecidableEq, Repr

/-- A row: one value per column of its table, in the table's column order. -/
abbrev Row := List Value

/-- A table: its name, its columns and its rows in insertion order. -/
structure Table where
  name : String
  cols : List ColDef
  rows : List Row
  deriving DecidableEq, Repr

/-- The database file: the tables created so far. -/
abbrev DB := List Table

/-- The errors the service can return. -/
inductive Error where
  | connection
  | malformedSQL
  | noSuchTable
  | noSuchColumn
  | wrongArgCount
  | notNullViolated
  | scanMismatch
  | sendFailed
  deriving DecidableEq, Repr

/-- The table of that name. -/
def findTable (db : DB) (name : String) : Option Table :=
  db.find? (fun t => t.name == name)

/-- Put `t` in the place of the table that has its name. -/
def putTable (db : DB) (t : Table) : DB :=
  db.map (fun u => if u.name == t.name then t else u)

/-- The position of a column in its table. -/
def colIndex (cols : List ColDef) (name : String) : Option Nat :=
  (cols.map ColDef.name).indexOf? name

/-- SQL `<`: defined between two instants, two texts or two booleans. -/
def Value.lt : Value → Value → Bool
  | Value.time a, Value.time b => decide (a < b)
  | Value.text a, Value.text b => decide (a < b)
  | Value.bool a, Value.bool b => !a && b
  | _, _ => false

/-- SQL `=`: NULL equals nothing. -/
def Value.eq : Value → Value → Bool
  | Value.null, _ => false
  | _, Value.null => false
  | a, b => a == b

/-- The value of a right-hand side under the bound arguments. -/
def evalRhs (args : List Value) : Rhs → Option Value
  | Rhs.param k => args[k]?
  | Rhs.bool b => some (Value.bool b)

/-- Whether a row satisfies one atom; a column or an argument that does not
exist satisfies nothing. -/
def evalAtom (cols : List ColDef) (args : List Value) (row : Row) (a : Atom) : Bool :=
  match (colIndex cols a.col).bind (fun i => row[i]?), evalRhs args a.rhs with
  | some v, some w =>
    match a.op with
    | CmpOp.lt => Value.lt v w
    | CmpOp.eq => Value.eq v w
  | _, _ => false

/-- Whether a row satisfies a `WHERE` clause: all of its atoms. -/
def evalCond (cols : List ColDef) (args : List Value) (cond : List Atom) (row : Row) : Bool :=
  cond.all (evalAtom cols args row)

/-- The number of `?` of a `WHERE` clause. -/
def condParams (cond : List Atom) : Nat :=
  (cond.filter (fun a => match a.rhs with
    | Rhs.param _ => true
    | Rhs.bool _ => false)).length

/-- The number of arguments a statement takes. -/
def Stmt.numInput : Stmt → Nat
  | Stmt.createTable _ _ => 0
  | Stmt.insertOrReplace _ _ n => n
  | Stmt.delete _ cond => condParams cond
  | Stmt.update _ _ _ cond => condParams cond
  | Stmt.select _ cond => condParams cond

/-- The table a statement reads or writes, and the columns it names. -/
def Stmt.refs : Stmt → String × List String
  | Stmt.createTable t _ => (t, [])
  | Stmt.insertOrReplace t cols _ => (t, cols)
  | Stmt.delete t cond => (t, cond.map Atom.col)
  | Stmt.update t c _ cond => (t, c :: cond.map Atom.col)
  | Stmt.select t cond => (t, cond.map Atom.col)

/-- Compiling a statement against the database (`db.Prepare`): the text must
parse, and but for `CREATE TABLE` its table and its columns must exist. -/
def Prepare (db : DB) (q : String) : Except Error Stmt :=
  match parseSQL q with
  | none => Except.error Error.malformedSQL
  | some (Stmt.createTable t cols) => Except.ok (Stmt.createTable t cols)
  | some st =>
    match findTable db st.refs.1 with
    | none => Except.error Error.noSuchTable
    | some t =>
      if st.refs.2.all (fun c => (colIndex t.cols c).isSome) then Except.ok st
      else Except.error Error.noSuchColumn

/-- The row an `INSERT` builds: for each column of the table the argument
bound to it, NULL if the statement does not name the column. -/
def buildRow (cols : List ColDef) (names : List String) (args : List Value) : Row :=
  cols.map (fun c =>
    match (names.indexOf? c.name).bind (fun j => args[j]?) with
    | some v => v
    | none => Value.null)

/-- Whether a row breaks a `NOT NULL` constraint. -/
def violatesNotNull (cols : List ColDef) (row : Row) : Bool :=
  (cols.zip row).any (fun p => p.1.notNull && p.2 == Value.null)

/-- Whether `old` collides with `new` on a `PRIMARY KEY` or `UNIQUE` column:
the rows `INSERT OR REPLACE` deletes before it inserts. -/
def conflicts (cols : List ColDef) (new old : Row) : Bool :=
  (cols.zip (new.zip old)).any (fun p => p.1.unique && Value.eq p.2.1 p.2.2)

/-- Set column `i` of a row. -/
def setCol (row : Row) (i : Nat) (v : Value) : Row :=
  row.set i v

/-- Running a statement that writes (`stmt.Exec`): the error, if any, and the
database afterwards. -/
def Exec (db : DB) (st : Stmt) (args : List Value) : Option Error × DB :=
  if args.length ≠ st.numInput then (some Error.wrongArgCount, db)
  else
    match st with
    | Stmt.createTable t cols =>
      match findTable db t with
      | some _ => (none, db)
      | none => (none, db ++ [⟨t, cols, []⟩])
    | Stmt.insertOrReplace t names _ =>
      match findTable db t with
      | none => (some Error.noSuchTable, db)
      | some tb =>
        let row := buildRow tb.cols names args
        if violatesNotNull tb.cols row then (some Error.notNullViolated, db)
        else
          (none, putTable db
            { tb with rows := tb.rows.filter (fun old => !conflicts tb.cols row old) ++ [row] })
    | Stmt.delete t cond =>
      match findTable db t with
      | none => (some Error.noSuchTable, db)
      | some tb =>
        (none, putTable db
          { tb with rows := tb.rows.filter (fun r => !evalCond tb.cols args cond r) })
    | Stmt.update t c v cond =>
      match findTable db t with
      | none => (some Error.noSuchTable, db)
      | some tb =>
        match colIndex tb.cols c with
        | none => (some Error.noSuchColumn, db)
        | some i =>
          (none, putTable db
            { tb with rows := tb.rows.map (fun r =>
                if evalCond tb.cols args cond r then setCol r i (Value.bool v) else r) })
    | Stmt.select _ _ => (none, db)

/-- Running a statement for its rows (`stmt.Query`): a `SELECT` returns the
rows that satisfy its `WHERE` clause, in table order, and writes nothing.
The service calls `Query` on nothing else; for completeness, another
statement is run as by `Exec` and returns no rows. -/
def Query (db : DB) (st : Stmt) (args : List Value) : Except Error (List Row) × DB :=
  if args.length ≠ st.numInput then (Except.error Error.wrongArgCount, db)
  else
    match st with
    | Stmt.select t cond =>
      match findTable db t with
      | none => (Except.error Error.noSuchTable, db)
      | some tb => (Except.ok (tb.rows.filter (evalCond tb.cols args cond)), db)
    | st =>
      match Exec db st args with
      | (some e, db') => (Except.error e, db')
      | (none, db') => (Except.ok [], db')

/-! ## `pkg/db/schema.go` -/

/-- The constant `SCHEMA`. -/
def SCHEMA : String :=
  "CREATE TABLE IF NOT EXISTS email_record (id TEXT NOT NULL,email_id TEXT NOT NULL,expiry_date TEXT NOT NULL,created_on TIME NOT NULL,is_deleted BOOL NOT NULL);"

/-- The constant `CREATE_EMAIL_RECORD_QUERY`. -/
def CREATE_EMAIL_RECORD_QUERY : String :=
  "INSERT OR REPLACE INTO email_record(id,email_id,expiry_date,created_on,is_deleted) VALUES(?,?,?,?,?);"

/-- The constant `HARD_DELETE_RECORD_QUERY`. -/
def HARD_DELETE_RECORD_QUERY : String :=
  "DELETE FROM email_record WHERE expiry_date< ?;"

/-- The constant `SOFT_DELETE_EXPIRED_RECORD_QUERY`. -/
def SOFT_DELETE_EXPIRED_RECORD_QUERY : String :=
  "UPDATE TABLE email_record SET is_deleted = true WHERE WHERE expiry_date< ?"

/-- The constant `LIST_ACTIVE_EMAIL_RECORD_QUERY`. -/
def LIST_ACTIVE_EMAIL_RECORD_QUERY : String :=
  "SELECT * FROM email_record WHERE expiry_date< ? AND is_deleted=false;"

/-! ## `pkg/gms/model/gms_model.go` -/

namespace model

/-- The struct `model.EmailRecord`; a `uuid.UUID` is its text. -/
structure EmailRecord where
  ID : String
  EmailID : String
  ExpiryDate : Int
  CreatedOn : Int
  IsDeleted : Bool
  deriving DecidableEq, Repr

/-- The zero value of `model.EmailRecord` (`var i model.EmailRecord`). -/
def EmailRecord.zero : EmailRecord :=
  ⟨"", "", 0, 0, false⟩

end model

/-- The fields of `model.EmailRecord`, as destinations of `Scan`. -/
inductive Field where
  | ID
  | EmailID
  | ExpiryDate
  | CreatedOn
  | IsDeleted
  deriving DecidableEq, Repr

/-- Store a column value in a field; a value of another type is refused. -/
def assign (i : model.EmailRecord) : Field → Value → Option model.EmailRecord
  | Field.ID, Value.text s => some { i with ID := s }
  | Field.EmailID, Value.text s => some { i with EmailID := s }
  | Field.ExpiryDate, Value.time t => some { i with ExpiryDate := t }
  | Field.CreatedOn, Value.time t => some { i with CreatedOn := t }
  | Field.IsDeleted, Value.bool b => some { i with IsDeleted := b }
  | _, _ => none

/-- Store the columns of a row in the destinations, pairwise from the left. -/
def assignAll : model.EmailRecord → List Field → Row → Option model.EmailRecord
  | i, d :: ds, v :: vs => (assign i d v).bind (fun i' => assignAll i' ds vs)
  | i, _, _ => some i

/-- The method `Rows.Scan`: it fails unless there are as many destinations as
the row has columns, and then stores each column in its destination. -/
def Scan (row : Row) (dests : List Field) (i : model.EmailRecord) : Except Error model.EmailRecord :=
  if dests.length ≠ row.length then Except.error Error.scanMismatch
  else
    match assignAll i dests row with
    | some i' => Except.ok i'
    | none => Except.error Error.scanMismatch

/-! ## `pkg/gms/gms_service.go`: the store -/

/-- The arguments `EmailRecord` passes to `stmt.Exec` (line 175). -/
def execArgs (mailRecord : model.EmailRecord) : List Value :=
  [Value.text mailRecord.ID, Value.text mailRecord.EmailID, Value.time mailRecord.ExpiryDate,
   Value.time mailRecord.CreatedOn, Value.bool mailRecord.IsDeleted]

/-- The function `EmailRecordTable`: prepare `SCHEMA` and execute it.
`conn` is the error of `dbpkg.NewdbConnection`, if it returns one. -/
def EmailRecordTable (conn : Option Error) (db : DB) : Option Error × DB :=
  match conn with
  | some e => (some e, db)
  | none =>
    match Prepare db SCHEMA with
    | Except.error e => (some e, db)
    | Except.ok stmt => Exec db stmt []

/-- The function `EmailRecord`: prepare `CREATE_EMAIL_RECORD_QUERY` and execute
it on the five fields of the record. -/
def EmailRecord (conn : Option Error) (db : DB) (mailRecord : model.EmailRecord) :
    Option Error × DB :=
  match conn with
  | some e => (some e, db)
  | none =>
    match Prepare db CREATE_EMAIL_RECORD_QUERY with
    | Except.error e => (some e, db)
    | Except.ok stmt => Exec db stmt (execArgs mailRecord)

/-- The destinations `ListActiveEmailIDs` passes to `Scan` (lines 211 to 218):
six of them, `&i.ExpiryDate` twice. -/
def listDests : List Field :=
  [Field.ID, Field.EmailID, Field.ExpiryDate, Field.ExpiryDate, Field.CreatedOn,
   Field.IsDeleted]

/-- The loop `for dbRecords.Next()` of `ListActiveEmailIDs`: scan each row
into a fresh record and append it; the first failing `Scan` returns. -/
def scanRows : List Row → Except Error (List model.EmailRecord)
  | [] => Except.ok []
  | row :: rows =>
    match Scan row listDests model.EmailRecord.zero with
    | Except.error e => Except.error e
    | Except.ok i =>
      match scanRows rows with
      | Except.error e => Except.error e
      | Except.ok items => Except.ok (i :: items)

/-- The function `ListActiveEmailIDs`, with `now` for `time.Now()`: prepare
`LIST_ACTIVE_EMAIL_RECORD_QUERY`, query it at `now`, scan the rows. -/
def ListActiveEmailIDs (conn : Option Error) (db : DB) (now : Int) :
    Except Error (List model.EmailRecord) :=
  match conn with
  | some e => Except.error e
  | none =>
    match Prepare db LIST_ACTIVE_EMAIL_RECORD_QUERY with
    | Except.error e => Except.error e
    | Except.ok stmt =>
      match (Query db stmt [Value.time now]).1 with
      | Except.error e => Except.error e
      | Except.ok dbRecords => scanRows dbRecords

/-- The function `SoftDeleteExpiredEmailIDs`, with `now` for `time.Now()`:
prepare `SOFT_DELETE_EXPIRED_RECORD_QUERY` and query it at `now`. -/
def SoftDeleteExpiredEmailIDs (conn : Option Error) (db : DB) (now : Int) :
    Option Error × DB :=
  match conn with
  | some e => (some e, db)
  | none =>
    match Prepare db SOFT_DELETE_EXPIRED_RECORD_QUERY with
    | Except.error e => (some e, db)
    | Except.ok stmt =>
      match Query db stmt [Value.time now] with
      | (Except.error e, db') => (some e, db')
      | (Except.ok _, db') => (none, db')

/-- The function `HardDeleteExpiredEmailIDs`: it prepares
`LIST_ACTIVE_EMAIL_RECORD_QUERY` (line 268) and queries it at the threshold. -/
def HardDeleteExpiredEmailIDs (conn : Option Error) (db : DB) (thresholdTime : Int) :
    Option Error × DB :=
  match conn with
  | some e => (some e, db)
  | none =>
    match Prepare db LIST_ACTIVE_EMAIL_RECORD_QUERY with
    | Except.error e => (some e, db)
    | Except.ok stmt =>
      match Query db stmt [Value.time thresholdTime] with
      | (Except.error e, db') => (some e, db')
      | (Except.ok _, db') => (none, db')

/-! ## Store states -/

/-- The row that holds a record. -/
def encode (r : model.EmailRecord) : Row :=
  execArgs r

/-- The columns `SCHEMA` declares. -/
def schemaCols : List ColDef :=
  [⟨"id", "text", true, false⟩, ⟨"email_id", "text", true, false⟩,
   ⟨"expiry_date", "text", true, false⟩, ⟨"created_on", "time", true, false⟩,
   ⟨"is_deleted", "bool", true, false⟩]

/-- The store that holds the records `rs`: the table `SCHEMA` creates, with
one row per record. -/
def storeOf (rs : List model.EmailRecord) : DB :=
  [⟨"email_record", schemaCols, rs.map encode⟩]

/-- The destinations that read a row of `email_record` field by field. -/
def rowDests : List Field :=
  [Field.ID, Field.EmailID, Field.ExpiryDate, Field.CreatedOn, Field.IsDeleted]

/-- The record a row holds. -/
def decode (row : Row) : Option model.EmailRecord :=
  match Scan row rowDests model.EmailRecord.zero with
  | Except.ok r => some r
  | Except.error _ => none

/-- The records of the store: the rows of `email_record`, in table order. -/
def records (db : DB) : List model.EmailRecord :=
  match findTable db "email_record" with
  | some t => t.rows.filterMap decode
  | none => []

/-! ## `pkg/gms/gms_service.go`: one cycle -/

/-- The struct `emailmodel.SMTP`, as `goodMorningSunshine` fills it. -/
structure SMTP where
  ToAddress : String
  EmailBody : String
  Subject : String
  deriving DecidableEq, Repr

/-- What a cycle does, in order: a call of `email.SendEmailUsingGmailSMTP`
with what it returned, or a call of `SoftDeleteExpiredEmailIDs`. -/
inductive Event where
  | send (m : SMTP) (err : Option Error)
  | sweep
  deriving DecidableEq, Repr

/-- How a call of `goodMorningSunshine` ends: it returns its `error`, or
`rand.Intn` panics. -/
inductive Ending where
  | returned (err : Option Error)
  | panicked
  deriving DecidableEq, Repr

/-- The run of one cycle. -/
structure Outcome where
  events : List Event
  ending : Ending
  deriving DecidableEq, Repr

/-- The subject line of the daily mail. -/
def subject : String :=
  "This is Your Message of the Day from team Good Moring Sunshine"

/-- The loop `for _, ar := range activeRecords` (lines 64 to 74), from its
`k`-th iteration on.  `rnd k` is the raw value behind the `k`-th call of
`rand.Intn`, which panics on a bound that is not positive; `send k m` is what
the `k`-th call of the sender returns, and the loop discards it.  The flag
tells whether the loop ran to its end. -/
def sendLoop (maxdays : Int) (GetEmailTemplate : Nat → String) (rnd : Nat → Nat)
    (send : Nat → SMTP → Option Error) : Nat → List model.EmailRecord → List Event × Bool
  | _, [] => ([], true)
  | k, ar :: rest =>
    if maxdays ≤ 0 then ([], false)
    else
      let randomIndex := rnd k % maxdays.toNat
      let emailbody := GetEmailTemplate randomIndex
      let m : SMTP := ⟨ar.EmailID, emailbody, subject⟩
      let r := sendLoop maxdays GetEmailTemplate rnd send (k + 1) rest
      (Event.send m (send k m) :: r.1, r.2)

/-- The function `goodMorningSunshine`.  `fetched` is what the call of
`ListActiveEmailIDs` returns and `swept` the error, if any, of the call of
`SoftDeleteExpiredEmailIDs`. -/
def goodMorningSunshine (maxdays : Int) (GetEmailTemplate : Nat → String) (rnd : Nat → Nat)
    (send : Nat → SMTP → Option Error) (fetched : Except Error (List model.EmailRecord))
    (swept : Option Error) : Outcome :=
  match fetched with
  | Except.error err => ⟨[], Ending.returned (some err)⟩
  | Except.ok activeRecords =>
    match sendLoop maxdays GetEmailTemplate rnd send 0 activeRecords with
    | (evs, false) => ⟨evs, Ending.panicked⟩
    | (evs, true) => ⟨evs ++ [Event.sweep], Ending.returned swept⟩

/-- One cycle on the store: `goodMorningSunshine` with the two store calls
it makes, both at `now`. -/
def cycleOnStore (maxdays : Int) (GetEmailTemplate : Nat → String) (rnd : Nat → Nat)
    (send : Nat → SMTP → Option Error) (conn : Option Error) (db : DB) (now : Int) : Outcome :=
  goodMorningSunshine maxdays GetEmailTemplate rnd send (ListActiveEmailIDs conn db now)
    (SoftDeleteExpiredEmailIDs conn db now).1

/-- The address a send event goes to. -/
def Event.sentTo : Event → Option String
  | Event.send m _ => some m.ToAddress
  | Event.sweep => none

/-! ## `pkg/gms/gms_service.go`: the scheduler -/

/-- The duration `24 * time.Hour`, in nanoseconds. -/
def day : Int := 86400000000000

/-- A `*time.Location`: the offset from UTC, in seconds, in force before the
first transition, and the transitions in ascending order, each with its Unix
second and the offset in force from then on. -/
structure Location where
  initial : Int
  trans : List (Int × Int)
  deriving DecidableEq, Repr

/-- The location `time.FixedZone`: one offset for ever. -/
def fixedZone (offset : Int) : Location :=
  ⟨offset, []⟩

/-- The location `time.UTC`. -/
def UTC : Location :=
  fixedZone 0

/-- The beginning of time for a zone that has no transition before it. -/
def alpha : Int := -9223372036854775808

/-- The end of time for a zone that has no transition after it. -/
def omegaEnd : Int := 9223372036854775807

/-- The search of `Location.lookup`: `off` is in force since `start`. -/
def lookupAux : List (Int × Int) → Int → Int → Int → Int × Int × Int
  | [], off, start, _ => (off, start, omegaEnd)
  | (t, o) :: rest, off, start, sec =>
    if sec < t then (off, start, t) else lookupAux rest o t sec

/-- The method `Location.lookup`: the offset in force at a Unix second, with
the second at which it came into force and the second at which it ends. -/
def Location.lookup (l : Location) (sec : Int) : Int × Int × Int :=
  lookupAux l.trans l.initial alpha sec

/-- The day `now.Year(), now.Month(), now.Day()` name: the number of the day,
counted from the epoch, that the wall clock of the location shows at `now`. -/
def localDay (l : Location) (now : Int) : Int :=
  (now / 1000000000 + (l.lookup (now / 1000000000)).1) / 86400

/-- The function `time.Date` on a day, a time of day and a location, as a
Unix second.  The fields are read as if in UTC, values outside their range
carrying into the next unit; the offset found at that second is taken off,
and looked up again at the result when the result lies outside the zone. -/
def Date (l : Location) (localDay hour minute second : Int) : Int :=
  let unix := localDay * 86400 + hour * 3600 + minute * 60 + second
  let z := l.lookup unix
  if z.1 ≠ 0 then
    let utc := unix - z.1
    if utc < z.2.1 ∨ utc ≥ z.2.2 then unix - (l.lookup utc).1 else unix - z.1
  else unix

/-- The instant `time.Date(now.Year(), now.Month(), now.Day(), hour, minute,
second, 0, now.Location())`: the given time of day on the day the wall clock
of the location shows at `now`. -/
def todayAt (l : Location) (now hour minute second : Int) : Int :=
  Date l (localDay l now) hour minute second * 1000000000

/-- The variable `nextRun` after line 28, for `now` in the location `l`. -/
def nextRun (l : Location) (now hour minute second : Int) : Int :=
  let nextRun := todayAt l now hour minute second
  if now > nextRun then nextRun + day else nextRun

/-- The variable `initialDelay` (line 29). -/
def initialDelay (l : Location) (now hour minute second : Int) : Int :=
  nextRun l now hour minute second - now

/-- The location `America/New_York` around the year 2024: standard time at
five hours behind UTC, daylight time at four hours behind from 2024-03-10
07:00:00 UTC to 2024-11-03 06:00:00 UTC. -/
def newYork : Location :=
  ⟨-18000, [(1710054000, -14400), (1730613600, -18000)]⟩

/-- The goroutine's loop (lines 37 to 50), `n` iterations of it: the instants
at which it starts a cycle.  `clock` is the instant at which the `select` is
entered and `tick` the instant of the ticker's next tick; `cancel` is the
instant at which `ctx.Done()` is closed, if it ever is.  The `select` wakes
when the first of its two channels is ready; when both are, `tie` tells
whether it takes the tick.  A cycle takes no time. -/
def tickLoop (cancel : Option Int) (tie : Nat → Bool) : Nat → Int → Int → List Int
  | 0, _, _ => []
  | n + 1, clock, tick =>
    let wake := match cancel with
      | some x => max clock (min tick x)
      | none => max clock tick
    let tickReady := decide (tick ≤ wake)
    let doneReady := match cancel with
      | some x => decide (x ≤ wake)
      | none => false
    if doneReady && (!tickReady || !tie n) then []
    else wake :: tickLoop cancel tie n wake (tick + day)

/-- The function `GoodMrngSunshineJob`, started at `now` in the location `l`:
the instants at which it starts a cycle, up to `n` iterations of the goroutine's loop.  The
ticker is created at line 32, before the sleep of line 34; `time.Sleep`
returns at once on a delay that is not positive; the call of line 35 follows
the sleep whatever has happened to `ctx`. -/
def GoodMrngSunshineJob (l : Location) (now hour minute second : Int)
    (cancel : Option Int) (tie : Nat → Bool) (n : Nat) : List Int :=
  let tickerStart := now
  let woken := now + max (initialDelay l now hour minute second) 0
  woken :: tickLoop cancel tie n woken (tickerStart + day)

/-! ## Notions the properties are stated with -/

/-- The atoms of `expiry_date< ? AND is_deleted=false`. -/
def listCond : List Atom :=
  [⟨"expiry_date", CmpOp.lt, Rhs.param 0⟩, ⟨"is_deleted", CmpOp.eq, Rhs.bool false⟩]

/-- The operations that write to the store. -/
inductive StoreOp where
  | upsert (mailRecord : model.EmailRecord)
  | softDelete (now : Int)
  | hardDelete (thresholdTime : Int)
  deriving DecidableEq, Repr

/-- The store after an operation. -/
def applyOp (conn : Option Error) (db : DB) : StoreOp → DB
  | StoreOp.upsert mailRecord => (EmailRecord conn db mailRecord).2
  | StoreOp.softDelete now => (SoftDeleteExpiredEmailIDs conn db now).2
  | StoreOp.hardDelete thresholdTime => (HardDeleteExpiredEmailIDs conn db thresholdTime).2

/-- Whether every record of `rs` with the id `id` has the flag set. -/
def allDeleted (id : String) (rs : List model.EmailRecord) : Bool :=
  rs.all (fun r => r.ID != id || r.IsDeleted)

/-- Whether an operation is `EmailRecord` of a record with the id `id` and
the flag unset. -/
def revives (id : String) : StoreOp → Bool
  | StoreOp.upsert mailRecord => mailRecord.ID == id && !mailRecord.IsDeleted
  | StoreOp.softDelete _ => false
  | StoreOp.hardDelete _ => false

/-- The records of `rs` with the flag set. -/
def softDeleted (rs : List model.EmailRecord) : List model.EmailRecord :=
  rs.filter (fun r => r.IsDeleted)

/-! ## The five statements, parsed -/

/-- The statement `SCHEMA` creates `email_record` with five columns, none of
them unique. -/
theorem parse_SCHEMA : parseSQL SCHEMA = some (Stmt.createTable "email_record" schemaCols) := by
  decide

/-- The statement of `EmailRecord` is an `INSERT OR REPLACE` of five bound
values. -/
theorem parse_CREATE_EMAIL_RECORD_QUERY :
    parseSQL CREATE_EMAIL_RECORD_QUERY
      = some (Stmt.insertOrReplace "email_record"
          ["id", "email_id", "expiry_date", "created_on", "is_deleted"] 5) := by
  decide

/-- The statement `HARD_DELETE_RECORD_QUERY` is a `DELETE`; no function of the
service prepares it. -/
theorem parse_HARD_DELETE_RECORD_QUERY :
    parseSQL HARD_DELETE_RECORD_QUERY
      = some (Stmt.delete "email_record" [⟨"expiry_date", CmpOp.lt, Rhs.param 0⟩]) := by
  decide

/-- The statement of `SoftDeleteExpiredEmailIDs` is not SQL: `TABLE` stands
where the table name belongs, and `WHERE` is written twice. -/
theorem parse_SOFT_DELETE_EXPIRED_RECORD_QUERY :
    parseSQL SOFT_DELETE_EXPIRED_RECORD_QUERY = none := by
  decide

/-- The statement of `ListActiveEmailIDs` selects on `expiry_date < ?` and
`is_deleted = false`. -/
theorem parse_LIST_ACTIVE_EMAIL_RECORD_QUERY :
    parseSQL LIST_ACTIVE_EMAIL_RECORD_QUERY = some (Stmt.select "email_record" listCond) := by
  decide

/-- The grammar does have `UPDATE`: the statement without the stray `TABLE`
and the second `WHERE` parses. -/
theorem parse_update_well_formed :
    parseSQL "UPDATE email_record SET is_deleted = true WHERE expiry_date< ?"
      = some (Stmt.update "email_record" "is_deleted" true
          [⟨"expiry_date", CmpOp.lt, Rhs.param 0⟩]) := by
  decide

/-- `EmailRecordTable` on the empty database creates the empty store. -/
theorem EmailRecordTable_creates : EmailRecordTable none [] = (none, storeOf []) := by
  decide

/-- A store has the table `email_record`. -/
theorem findTable_storeOf (rs : List model.EmailRecord) :
    findTable (storeOf rs) "email_record" = some ⟨"email_record", schemaCols, rs.map encode⟩ := by
  simp [findTable, storeOf]

/-- Writing the table of a store back gives the store with the new rows. -/
theorem putTable_storeOf (rs : List model.EmailRecord) (rows : List Row) :
    putTable (storeOf rs) ⟨"email_record", schemaCols, rows⟩
      = [⟨"email_record", schemaCols, rows⟩] := by
  simp [putTable, storeOf]

/-- The records of the store that holds `rs` are `rs`. -/
theorem records_storeOf (rs : List model.EmailRecord) : records (storeOf rs) = rs := by
  simp only [records, findTable_storeOf]
  induction rs with
  | nil => rfl
  | cons r rs ih =>
    simp only [List.map_cons, List.filterMap_cons, ih]
    rfl

/-! ## The store functions on a store -/

/-- On a store the list query prepares. -/
theorem Prepare_list (rs : List model.EmailRecord) :
    Prepare (storeOf rs) LIST_ACTIVE_EMAIL_RECORD_QUERY
      = Except.ok (Stmt.select "email_record" listCond) := by
  simp only [Prepare, parse_LIST_ACTIVE_EMAIL_RECORD_QUERY, Stmt.refs, findTable_storeOf]
  rfl

/-- On a store the insert prepares. -/
theorem Prepare_create (rs : List model.EmailRecord) :
    Prepare (storeOf rs) CREATE_EMAIL_RECORD_QUERY
      = Except.ok (Stmt.insertOrReplace "email_record"
          ["id", "email_id", "expiry_date", "created_on", "is_deleted"] 5) := by
  simp only [Prepare, parse_CREATE_EMAIL_RECORD_QUERY, Stmt.refs, findTable_storeOf]
  rfl

/-- On a row of the store, the `WHERE` clause of the list query bound to `now`
says: the expiry date is before `now`, and the record is not deleted. -/
theorem evalCond_list (now : Int) (r : model.EmailRecord) :
    evalCond schemaCols [Value.time now] listCond (encode r)
      = (decide (r.ExpiryDate < now) && !r.IsDeleted) := by
  have h2 : colIndex schemaCols "expiry_date" = some 2 := by decide
  have h4 : colIndex schemaCols "is_deleted" = some 4 := by decide
  cases hd : r.IsDeleted <;>
    simp [evalCond, listCond, evalAtom, h2, h4, encode, execArgs, evalRhs, Value.lt, Value.eq, hd]

/-- The rows the list query returns at `now`. -/
theorem Query_list (rs : List model.EmailRecord) (now : Int) :
    Query (storeOf rs) (Stmt.select "email_record" listCond) [Value.time now]
      = (Except.ok ((rs.filter
          (fun r => decide (r.ExpiryDate < now) && !r.IsDeleted)).map encode), storeOf rs) := by
  have hn : [Value.time now].length = (Stmt.select "email_record" listCond).numInput := by rfl
  simp only [Query, hn, ne_eq, not_true_eq_false, if_false, findTable_storeOf]
  congr 2
  induction rs with
  | nil => rfl
  | cons r rs ih =>
    simp only [List.map_cons, List.filter_cons, evalCond_list, ih]
    split <;> simp

/-- The scan of `ListActiveEmailIDs` fails on the first row, if there is one:
six destinations for five columns. -/
theorem scanRows_encode (rs : List model.EmailRecord) :
    scanRows (rs.map encode)
      = if rs = [] then Except.ok [] else Except.error Error.scanMismatch := by
  cases rs with
  | nil => rfl
  | cons r rs => rfl

/-- What `ListActiveEmailIDs` returns on a store: no record at all when no
record has its expiry date before `now` with the flag unset, and an error
otherwise. -/
theorem ListActiveEmailIDs_storeOf (rs : List model.EmailRecord) (now : Int) :
    ListActiveEmailIDs none (storeOf rs) now
      = if rs.filter (fun r => decide (r.ExpiryDate < now) && !r.IsDeleted) = []
        then Except.ok [] else Except.error Error.scanMismatch := by
  simp only [ListActiveEmailIDs, Prepare_list, Query_list, scanRows_encode]

/-- No row collides with another: `SCHEMA` declares no column unique. -/
theorem conflicts_schemaCols (new old : Row) : conflicts schemaCols new old = false := by
  unfold conflicts
  rw [Bool.eq_false_iff]
  intro h
  rw [List.any_eq_true] at h
  obtain ⟨p, hp, hu⟩ := h
  have hmem : p.1 ∈ schemaCols := (List.of_mem_zip (a := p.1) (b := p.2) hp).1
  have hall : ∀ c ∈ schemaCols, c.unique = false := by decide
  simp [hall p.1 hmem] at hu

/-- `EmailRecord` on a store appends the record, whatever the store holds. -/
theorem EmailRecord_storeOf (rs : List model.EmailRecord) (m : model.EmailRecord) :
    EmailRecord none (storeOf rs) m = (none, storeOf (rs ++ [m])) := by
  have hn : (execArgs m).length
      = (Stmt.insertOrReplace "email_record"
          ["id", "email_id", "expiry_date", "created_on", "is_deleted"] 5).numInput := by
    rfl
  have hrow : buildRow schemaCols ["id", "email_id", "expiry_date", "created_on", "is_deleted"]
      (execArgs m) = encode m := by
    rfl
  have hnn : violatesNotNull schemaCols (encode m) = false := by
    rfl
  simp only [EmailRecord, Prepare_create, Exec, hn, ne_eq, not_true_eq_false, if_false,
    findTable_storeOf, hrow, hnn, conflicts_schemaCols, Bool.not_false, List.filter_true,
    putTable_storeOf]
  simp [storeOf]

/-- `SoftDeleteExpiredEmailIDs` fails and writes nothing, on every database:
its statement does not parse. -/
theorem SoftDeleteExpiredEmailIDs_fails (conn : Option Error) (db : DB) (now : Int) :
    SoftDeleteExpiredEmailIDs conn db now
      = (some (conn.getD Error.malformedSQL), db) := by
  cases conn with
  | some e => rfl
  | none =>
    simp only [SoftDeleteExpiredEmailIDs, Prepare, parse_SOFT_DELETE_EXPIRED_RECORD_QUERY]
    rfl

/-- On every database the list query prepares to its `SELECT`, or not at
all. -/
theorem Prepare_list_cases (db : DB) :
    Prepare db LIST_ACTIVE_EMAIL_RECORD_QUERY = Except.ok (Stmt.select "email_record" listCond)
      ∨ ∃ e, Prepare db LIST_ACTIVE_EMAIL_RECORD_QUERY = Except.error e := by
  simp only [Prepare, parse_LIST_ACTIVE_EMAIL_RECORD_QUERY]
  cases findTable db (Stmt.select "email_record" listCond).refs.1 with
  | none => exact Or.inr ⟨_, rfl⟩
  | some t =>
    simp only []
    split
    · exact Or.inl rfl
    · exact Or.inr ⟨_, rfl⟩

/-- A `SELECT` writes nothing. -/
theorem Query_select_db (db : DB) (t : String) (cond : List Atom) (args : List Value) :
    (Query db (Stmt.select t cond) args).2 = db := by
  simp only [Query]
  split
  · rfl
  · cases findTable db t <;> rfl

/-- `HardDeleteExpiredEmailIDs` writes nothing, on every database: its
statement is a `SELECT`. -/
theorem HardDeleteExpiredEmailIDs_db (conn : Option Error) (db : DB) (thresholdTime : Int) :
    (HardDeleteExpiredEmailIDs conn db thresholdTime).2 = db := by
  cases conn with
  | some e => rfl
  | none =>
    rcases Prepare_list_cases db with h | ⟨e, h⟩
    · have hq := Query_select_db db "email_record" listCond [Value.time thresholdTime]
      simp only [HardDeleteExpiredEmailIDs, h]
      split <;> simp_all
    · simp only [HardDeleteExpiredEmailIDs, h]

/-! ## The store: the claims -/

/-- C1, on the code: a store that holds one record, not deleted, with expiry
date 10.  At `now = 5` the record is active and `ListActiveEmailIDs` returns
no record; at `now = 15` the record has expired and `ListActiveEmailIDs`
returns an error in place of the empty list. -/
theorem ListActiveEmailIDs_misses_active :
    ListActiveEmailIDs none (storeOf [⟨"X", "a@x.com", 10, 0, false⟩]) 5 = Except.ok []
      ∧ ListActiveEmailIDs none (storeOf [⟨"X", "a@x.com", 10, 0, false⟩]) 15
          = Except.error Error.scanMismatch :=
  ⟨rfl, rfl⟩

/-- C3, on the code: on the table `SCHEMA` creates, `EmailRecord` of id `X`
with `a@x.com` and then of id `X` with `b@x.com` leaves two records with id
`X`, the first of them with `a@x.com`. -/
theorem EmailRecord_same_id_twice :
    records (EmailRecord none (EmailRecord none (EmailRecordTable none []).2
        ⟨"X", "a@x.com", 10, 0, false⟩).2 ⟨"X", "b@x.com", 10, 0, false⟩).2
      = [⟨"X", "a@x.com", 10, 0, false⟩, ⟨"X", "b@x.com", 10, 0, false⟩] := by
  decide

/-- C5, on the code: a record that expired a day before `now`, not deleted.
`SoftDeleteExpiredEmailIDs` returns an error and the record is still not
deleted. -/
theorem SoftDeleteExpiredEmailIDs_leaves_expired :
    SoftDeleteExpiredEmailIDs none (storeOf [⟨"X", "a@x.com", 86400000000000, 0, false⟩])
        172800000000000
      = (some Error.malformedSQL, storeOf [⟨"X", "a@x.com", 86400000000000, 0, false⟩]) := by
  decide

/-- C6, on the code: a record with expiry date 10 and the threshold 20.
`HardDeleteExpiredEmailIDs` returns no error and the record is still in the
store. -/
theorem HardDeleteExpiredEmailIDs_keeps_expired :
    HardDeleteExpiredEmailIDs none (storeOf [⟨"X", "a@x.com", 10, 0, true⟩]) 20
      = (none, storeOf [⟨"X", "a@x.com", 10, 0, true⟩]) := by
  decide

/-- C8: on every database and at every `now`, `SoftDeleteExpiredEmailIDs`
run a second time returns what the first run returned and leaves the store,
and so the soft-deleted records, as the first run left them. -/
theorem SoftDeleteExpiredEmailIDs_idempotent (conn : Option Error) (db : DB) (now : Int) :
    SoftDeleteExpiredEmailIDs conn (SoftDeleteExpiredEmailIDs conn db now).2 now
        = SoftDeleteExpiredEmailIDs conn db now
      ∧ softDeleted (records
            (SoftDeleteExpiredEmailIDs conn (SoftDeleteExpiredEmailIDs conn db now).2 now).2)
          = softDeleted (records (SoftDeleteExpiredEmailIDs conn db now).2) := by
  simp only [SoftDeleteExpiredEmailIDs_fails, and_self]

/-- C10 as stated fails: the store holds the record `X` with the flag set,
and after `EmailRecord` of `X` with the flag unset it holds a record `X` with
the flag unset. -/
theorem soft_delete_not_monotonic :
    ∃ r ∈ records (storeOf [⟨"X", "a@x.com", 10, 0, true⟩]), r.IsDeleted = true
      ∧ ∃ r' ∈ records (applyOp none (storeOf [⟨"X", "a@x.com", 10, 0, true⟩])
          (StoreOp.upsert ⟨"X", "a@x.com", 10, 0, false⟩)),
        r'.ID = r.ID ∧ r'.IsDeleted = false :=
  ⟨⟨"X", "a@x.com", 10, 0, true⟩, by decide, rfl,
    ⟨"X", "a@x.com", 10, 0, false⟩, by decide, rfl, rfl⟩

/-- C10, amended: when every record with a given id has the flag set, then
after any operation every record with that id has the flag set, unless the
operation is `EmailRecord` of a record with that id and the flag unset. -/
theorem soft_delete_monotonic (conn : Option Error) (rs : List model.EmailRecord)
    (op : StoreOp) (id : String)
    (hbefore : allDeleted id (records (storeOf rs)) = true)
    (hop : revives id op = false) :
    allDeleted id (records (applyOp conn (storeOf rs) op)) = true := by
  cases op with
  | upsert m =>
    cases conn with
    | some e => exact hbefore
    | none =>
      rw [records_storeOf] at hbefore
      simp only [applyOp, EmailRecord_storeOf, records_storeOf, allDeleted, List.all_append,
        List.all_cons, List.all_nil, Bool.and_true, Bool.and_eq_true]
      refine ⟨hbefore, ?_⟩
      simp only [revives] at hop
      cases hid : m.ID == id <;> cases hd : m.IsDeleted <;> simp_all
  | softDelete now =>
    simp only [applyOp, SoftDeleteExpiredEmailIDs_fails]
    exact hbefore
  | hardDelete t =>
    simp only [applyOp, HardDeleteExpiredEmailIDs_db]
    exact hbefore

/-- C10, amended, at an instance: the store holds `X` with the flag set and
`EmailRecord` writes `X` again with the flag set. -/
theorem soft_delete_monotonic_witness :
    allDeleted "X" (records (storeOf [⟨"X", "a@x.com", 10, 0, true⟩])) = true
      ∧ revives "X" (StoreOp.upsert ⟨"X", "b@x.com", 20, 5, true⟩) = false
      ∧ allDeleted "X" (records (applyOp none (storeOf [⟨"X", "a@x.com", 10, 0, true⟩])
          (StoreOp.upsert ⟨"X", "b@x.com", 20, 5, true⟩))) = true :=
  ⟨by decide, by decide,
    soft_delete_monotonic none [⟨"X", "a@x.com", 10, 0, true⟩]
      (StoreOp.upsert ⟨"X", "b@x.com", 20, 5, true⟩) "X" (by decide) (by decide)⟩

/-! ## One cycle: the claims -/

/-- With a positive bound the loop runs to its end, and its events are one
send per record, to the record's address, in the order of the list. -/
theorem sendLoop_spec (maxdays : Int) (GetEmailTemplate : Nat → String) (rnd : Nat → Nat)
    (send : Nat → SMTP → Option Error) (hmax : 1 ≤ maxdays) (recs : List model.EmailRecord) :
    ∀ k, (sendLoop maxdays GetEmailTemplate rnd send k recs).2 = true
      ∧ (sendLoop maxdays GetEmailTemplate rnd send k recs).1.map Event.sentTo
          = recs.map (fun ar => some ar.EmailID) := by
  have hpos : ¬ maxdays ≤ 0 := by omega
  induction recs with
  | nil => intro k; exact ⟨rfl, rfl⟩
  | cons ar rest ih =>
    intro k
    simp only [sendLoop, hpos, if_false, List.map_cons, Event.sentTo, (ih (k + 1)).1,
      (ih (k + 1)).2, and_self]

/-- The `k`-th event of the loop is the send to the `k`-th record, with the
template the random index picks and with what the sender returned. -/
theorem sendLoop_getElem (maxdays : Int) (GetEmailTemplate : Nat → String) (rnd : Nat → Nat)
    (send : Nat → SMTP → Option Error) (hmax : 1 ≤ maxdays) (recs : List model.EmailRecord) :
    ∀ k j ar, recs[j]? = some ar →
      (sendLoop maxdays GetEmailTemplate rnd send k recs).1[j]?
        = some (Event.send ⟨ar.EmailID, GetEmailTemplate (rnd (k + j) % maxdays.toNat), subject⟩
            (send (k + j)
              ⟨ar.EmailID, GetEmailTemplate (rnd (k + j) % maxdays.toNat), subject⟩)) := by
  have hpos : ¬ maxdays ≤ 0 := by omega
  induction recs with
  | nil => intro k j ar h; simp at h
  | cons a rest ih =>
    intro k j ar h
    cases j with
    | zero =>
      simp only [List.getElem?_cons_zero, Option.some.injEq] at h
      subst h
      simp only [sendLoop, hpos, if_false, List.getElem?_cons_zero, Nat.add_zero]
    | succ j =>
      simp only [List.getElem?_cons_succ] at h
      have := ih (k + 1) j ar h
      simp only [sendLoop, hpos, if_false, List.getElem?_cons_succ, this]
      have e : k + 1 + j = k + (j + 1) := by omega
      rw [e]

/-- C4: whatever list the fetch returns, with `maxdays >= 1` and whatever the
sender returns on each call, the events of the cycle are one send per
recipient of the list, in order, followed by one sweep, and the cycle returns
what the sweep returned. -/
theorem goodMorningSunshine_sends_all_then_sweeps (maxdays : Int)
    (GetEmailTemplate : Nat → String) (rnd : Nat → Nat) (send : Nat → SMTP → Option Error)
    (activeRecords : List model.EmailRecord) (swept : Option Error) (hmax : 1 ≤ maxdays) :
    ∃ sends,
      (goodMorningSunshine maxdays GetEmailTemplate rnd send (Except.ok activeRecords)
          swept).events = sends ++ [Event.sweep]
      ∧ sends.map Event.sentTo = activeRecords.map (fun ar => some ar.EmailID)
      ∧ (goodMorningSunshine maxdays GetEmailTemplate rnd send (Except.ok activeRecords)
          swept).ending = Ending.returned swept := by
  have h := sendLoop_spec maxdays GetEmailTemplate rnd send hmax activeRecords 0
  refine ⟨(sendLoop maxdays GetEmailTemplate rnd send 0 activeRecords).1, ?_, h.2, ?_⟩
  · simp only [goodMorningSunshine]
    split
    · rename_i evs heq
      rw [heq] at h
      simp at h
    · rename_i evs heq
      rw [heq]
  · simp only [goodMorningSunshine]
    split
    · rename_i evs heq
      rw [heq] at h
      simp at h
    · rfl

/-- C4 at an instance: three recipients, the sender fails on the second, and
the sweep fails too. -/
theorem goodMorningSunshine_sends_all_then_sweeps_witness :
    ∃ sends,
      (goodMorningSunshine 3 (fun _ => "<html></html>") (fun k => k + 7)
          (fun k _ => if k = 1 then some Error.sendFailed else none)
          (Except.ok [⟨"A", "a@x.com", 10, 0, false⟩, ⟨"B", "b@x.com", 10, 0, false⟩,
            ⟨"C", "c@x.com", 10, 0, false⟩]) (some Error.malformedSQL)).events
        = sends ++ [Event.sweep]
      ∧ sends.map Event.sentTo
          = [⟨"A", "a@x.com", 10, 0, false⟩, ⟨"B", "b@x.com", 10, 0, false⟩,
              (⟨"C", "c@x.com", 10, 0, false⟩ : model.EmailRecord)].map
            (fun ar => some ar.EmailID)
      ∧ (goodMorningSunshine 3 (fun _ => "<html></html>") (fun k => k + 7)
          (fun k _ => if k = 1 then some Error.sendFailed else none)
          (Except.ok [⟨"A", "a@x.com", 10, 0, false⟩, ⟨"B", "b@x.com", 10, 0, false⟩,
            ⟨"C", "c@x.com", 10, 0, false⟩]) (some Error.malformedSQL)).ending
        = Ending.returned (some Error.malformedSQL) :=
  goodMorningSunshine_sends_all_then_sweeps 3 (fun _ => "<html></html>") (fun k => k + 7)
    (fun k _ => if k = 1 then some Error.sendFailed else none)
    [⟨"A", "a@x.com", 10, 0, false⟩, ⟨"B", "b@x.com", 10, 0, false⟩,
      ⟨"C", "c@x.com", 10, 0, false⟩] (some Error.malformedSQL) (by decide)

/-- With a bound that is not positive, a cycle that has a recipient panics
before its first send and never sweeps. -/
theorem goodMorningSunshine_panics (maxdays : Int) (GetEmailTemplate : Nat → String)
    (rnd : Nat → Nat) (send : Nat → SMTP → Option Error) (ar : model.EmailRecord)
    (rest : List model.EmailRecord) (swept : Option Error) (hmax : maxdays ≤ 0) :
    goodMorningSunshine maxdays GetEmailTemplate rnd send (Except.ok (ar :: rest)) swept
      = ⟨[], Ending.panicked⟩ := by
  simp [goodMorningSunshine, sendLoop, hmax]

/-- On a store, a cycle never sends: the fetch returns no record or fails. -/
theorem cycleOnStore_sends_nothing (maxdays : Int) (GetEmailTemplate : Nat → String)
    (rnd : Nat → Nat) (send : Nat → SMTP → Option Error) (rs : List model.EmailRecord)
    (now : Int) :
    (cycleOnStore maxdays GetEmailTemplate rnd send none (storeOf rs) now).events.filterMap
        Event.sentTo = [] := by
  simp only [cycleOnStore, ListActiveEmailIDs_storeOf]
  split <;> simp [goodMorningSunshine, sendLoop, Event.sentTo]

/-! ## The scheduler: the claims -/

/-- In a location with one offset, `time.Date` takes the offset off. -/
theorem Date_fixedZone (off d hour minute second : Int) :
    Date (fixedZone off) d hour minute second
      = d * 86400 + hour * 3600 + minute * 60 + second - off := by
  simp only [Date, Location.lookup, fixedZone, lookupAux]
  split
  · split <;> rfl
  · rename_i h
    have h0 : off = 0 := by simpa using h
    omega

/-- In a location with one offset, the target time of day on the day of
`now`. -/
theorem todayAt_fixedZone (off now hour minute second : Int) :
    todayAt (fixedZone off) now hour minute second
      = ((now / 1000000000 + off) / 86400 * 86400 + hour * 3600 + minute * 60 + second - off)
          * 1000000000 := by
  unfold todayAt
  rw [Date_fixedZone]
  simp only [localDay, Location.lookup, fixedZone, lookupAux]

/-- In a location with one offset and for a target time of day in range,
`nextRun` is not before `now` and less than a day after it. -/
theorem nextRun_bounds (off now hour minute second : Int)
    (hh : 0 ≤ hour ∧ hour ≤ 23) (hm : 0 ≤ minute ∧ minute ≤ 59)
    (hs : 0 ≤ second ∧ second ≤ 59) :
    now ≤ nextRun (fixedZone off) now hour minute second
      ∧ nextRun (fixedZone off) now hour minute second < now + day := by
  simp only [nextRun, todayAt_fixedZone]
  split
  · rename_i h
    simp only [day] at *
    constructor <;> omega
  · rename_i h
    simp only [day] at *
    constructor <;> omega

/-- In a location with one offset the roll-over is right: when the target
time of day, taken today, is before `now`, then `nextRun` is that instant plus
one day; it is after `now` and at most one day after `now`. -/
theorem nextRun_fixedZone_rolls_one_day (off now hour minute second : Int)
    (hh : 0 ≤ hour ∧ hour ≤ 23) (hm : 0 ≤ minute ∧ minute ≤ 59)
    (hs : 0 ≤ second ∧ second ≤ 59)
    (hpast : todayAt (fixedZone off) now hour minute second < now) :
    nextRun (fixedZone off) now hour minute second
        = todayAt (fixedZone off) now hour minute second + day
      ∧ now < nextRun (fixedZone off) now hour minute second
      ∧ nextRun (fixedZone off) now hour minute second ≤ now + day := by
  have hb := nextRun_bounds off now hour minute second hh hm hs
  have hgt : now > todayAt (fixedZone off) now hour minute second := hpast
  have heq : nextRun (fixedZone off) now hour minute second
      = todayAt (fixedZone off) now hour minute second + day := by
    simp only [nextRun, hgt, if_true]
  refine ⟨heq, ?_, le_of_lt hb.2⟩
  rw [heq, todayAt_fixedZone]
  simp only [day]
  omega

/-- The scenario of the roll-over in UTC: the target 08:00:00 and `now` at
09:00:00 of day 0 give `nextRun` at 08:00:00 of day 1. -/
theorem nextRun_UTC_scenario :
    todayAt UTC 32400000000000 8 0 0 = 28800000000000
      ∧ nextRun UTC 32400000000000 8 0 0 = 115200000000000 := by
  decide

/-- C2, on the code: the location is `America/New_York`, `now` is 2024-11-03
23:30:00 EST (2024-11-04 04:30:00 UTC) and the target is 00:00:00.  The day
of `now` is the one on which daylight time ends, 25 hours long.  Today at the
target time is 2024-11-03 00:00:00 EDT (04:00:00 UTC), before `now`; `nextRun`
is 24 hours later, 2024-11-04 04:00:00 UTC, which is 23:00:00 EST of the same
day: `nextRun` is before `now`. -/
theorem nextRun_before_now_when_clocks_go_back :
    localDay newYork 1730694600000000000 = 20030
      ∧ todayAt newYork 1730694600000000000 0 0 0 = 1730606400000000000
      ∧ todayAt newYork 1730694600000000000 0 0 0 < 1730694600000000000
      ∧ nextRun newYork 1730694600000000000 0 0 0 = 1730692800000000000
      ∧ nextRun newYork 1730694600000000000 0 0 0 < 1730694600000000000
      ∧ localDay newYork (nextRun newYork 1730694600000000000 0 0 0) = 20030 := by
  decide

/-- On the day before daylight time begins, the roll-over lands an hour late
on the wall clock: in `America/New_York` with the target 08:00:00 and `now` at
2024-03-09 09:00:00 EST, `nextRun` is 2024-03-10 13:00:00 UTC, which is
09:00:00 EDT. -/
theorem nextRun_hour_late_when_clocks_go_forward :
    nextRun newYork 1709992800000000000 8 0 0 = 1710075600000000000
      ∧ todayAt newYork 1710075600000000000 8 0 0 = 1710072000000000000 := by
  decide

/-- When the target time of day, taken today, is not before `now`, `nextRun`
is that instant. -/
theorem nextRun_today (l : Location) (now hour minute second : Int)
    (h : now ≤ todayAt l now hour minute second) :
    nextRun l now hour minute second = todayAt l now hour minute second := by
  have hgt : ¬ now > todayAt l now hour minute second := by omega
  simp only [nextRun, hgt, if_false]

/-- Without cancellation the loop starts a cycle at each tick of the ticker. -/
theorem tickLoop_none (tie : Nat → Bool) :
    ∀ n clock tick, clock ≤ tick →
      tickLoop none tie n clock tick
        = (List.range n).map (fun (k : Nat) => tick + (k : Int) * day) := by
  intro n
  induction n with
  | zero => intro clock tick _; rfl
  | succ n ih =>
    intro clock tick h
    have hd : tick ≤ tick + day := by simp only [day]; omega
    have hmax : max clock tick = tick := max_eq_right h
    simp only [tickLoop, hmax, le_refl, decide_True, Bool.false_and, Bool.false_eq_true,
      if_false, ih tick (tick + day) hd, List.range_succ_eq_map, List.map_cons, List.map_map]
    congr 1
    · simp
    · apply List.map_congr_left
      intro k _
      simp only [Function.comp, Nat.succ_eq_add_one, Nat.cast_add, Nat.cast_one]
      ring

/-- The schedule of the job in a location with one offset, without
cancellation and for a target time of day in range: the first cycle starts at
`nextRun`, and the cycle after `k + 1` ticks starts `k + 1` days after `now`,
the instant at which the job started. -/
theorem GoodMrngSunshineJob_schedule (off now hour minute second : Int) (tie : Nat → Bool)
    (n : Nat) (hh : 0 ≤ hour ∧ hour ≤ 23) (hm : 0 ≤ minute ∧ minute ≤ 59)
    (hs : 0 ≤ second ∧ second ≤ 59) :
    GoodMrngSunshineJob (fixedZone off) now hour minute second none tie n
      = nextRun (fixedZone off) now hour minute second
          :: (List.range n).map (fun (k : Nat) => now + ((k : Int) + 1) * day) := by
  have hbound := nextRun_bounds off now hour minute second hh hm hs
  have hdelay : max (initialDelay (fixedZone off) now hour minute second) 0
      = nextRun (fixedZone off) now hour minute second - now := by
    simp only [initialDelay]
    apply max_eq_left
    omega
  have hwoken : now + (nextRun (fixedZone off) now hour minute second - now)
      = nextRun (fixedZone off) now hour minute second := by omega
  simp only [GoodMrngSunshineJob, hdelay, hwoken,
    tickLoop_none tie n _ _ (le_of_lt hbound.2)]
  congr 1
  apply List.map_congr_left
  intro k _
  ring

/-- C7, on the code: the job starts in UTC at 07:00:00 with the target
08:00:00.  The first cycle starts at `nextRun`, 08:00:00 of the day; the
second starts at 07:00:00 of the next day, 23 hours after the first and not at
`nextRun` plus a day. -/
theorem GoodMrngSunshineJob_second_cycle_early :
    nextRun UTC 25200000000000 8 0 0 = 28800000000000
      ∧ GoodMrngSunshineJob UTC 25200000000000 8 0 0 none (fun _ => true) 1
          = [28800000000000, 111600000000000]
      ∧ nextRun UTC 25200000000000 8 0 0 + 1 * day = 115200000000000 := by
  decide

/-- In a location with one offset, when `ctx` is cancelled during the initial
wait, the job starts exactly one cycle, at `nextRun`: the call of line 35. -/
theorem GoodMrngSunshineJob_cancelled_in_wait (off now hour minute second x : Int)
    (tie : Nat → Bool) (n : Nat) (hh : 0 ≤ hour ∧ hour ≤ 23) (hm : 0 ≤ minute ∧ minute ≤ 59)
    (hs : 0 ≤ second ∧ second ≤ 59)
    (hx : x < nextRun (fixedZone off) now hour minute second) :
    GoodMrngSunshineJob (fixedZone off) now hour minute second (some x) tie n
      = [nextRun (fixedZone off) now hour minute second] := by
  have hbound := nextRun_bounds off now hour minute second hh hm hs
  have hdelay : max (initialDelay (fixedZone off) now hour minute second) 0
      = nextRun (fixedZone off) now hour minute second - now := by
    simp only [initialDelay]
    apply max_eq_left
    omega
  have hwoken : now + (nextRun (fixedZone off) now hour minute second - now)
      = nextRun (fixedZone off) now hour minute second := by omega
  cases n with
  | zero => simp only [GoodMrngSunshineJob, hdelay, hwoken, tickLoop]
  | succ n =>
    have hmin : min (now + day) x = x := min_eq_right (by omega)
    have hmax : max (nextRun (fixedZone off) now hour minute second) x
        = nextRun (fixedZone off) now hour minute second :=
      max_eq_left (le_of_lt hx)
    have hdone : decide (x ≤ nextRun (fixedZone off) now hour minute second) = true :=
      decide_eq_true (le_of_lt hx)
    have htick : decide (now + day ≤ nextRun (fixedZone off) now hour minute second) = false :=
      decide_eq_false (by omega)
    simp only [GoodMrngSunshineJob, hdelay, hwoken, tickLoop, hmin, hmax, hdone, htick,
      Bool.not_false, Bool.true_or, Bool.and_self, if_true]

/-- C9, on the code: the job starts in UTC at 07:00:00 with the target
08:00:00 and `ctx` is cancelled at 07:30:00, during the initial wait.  A cycle
is started all the same, at 08:00:00, and it is the only one, however many
iterations of the loop are looked at. -/
theorem GoodMrngSunshineJob_cycle_after_cancel (tie : Nat → Bool) (n : Nat) :
    GoodMrngSunshineJob UTC 25200000000000 8 0 0 (some 27000000000000) tie n
      = [28800000000000] :=
  GoodMrngSunshineJob_cancelled_in_wait 0 25200000000000 8 0 0 27000000000000 tie n
    (by decide) (by decide) (by decide) (by decide)

end GMS
